import Mathlib

/-!
Shallow embedding of the tenant-scoped workout data-access gateway and its
mutating entry points, translated from `src/db/schema.ts`, `src/data/workouts.ts`,
`app/dashboard/workout/[workoutId]/actions.ts` and the create action file.

Modelling conventions:
- timestamps are milliseconds as `Nat`; local-time day arithmetic is modelled
  with a fixed day length of 86400000 ms, so `setHours(0,0,0,0)` becomes
  rounding down to a multiple of `msPerDay` and `setHours(23,59,59,999)`
  becomes that plus 86399999;
- the relational store is an explicit state (`DB`) of row lists; a drizzle
  `select ... where p ... orderBy k` is `List.filter` followed by `mergeSort`;
- JS `undefined` on an optional field is `Option.none`; drizzle `.set` skips
  keys whose value is undefined, which the model reflects by only overwriting
  fields that are `some`;
- JS numbers reaching the zod `id` check are modelled as `Int` (the `.int()`
  refinement is identified with membership in `Int`);
- a rejected promise from the store is modelled with `Except Unit`; the
  per-exercise failure behaviour of the store is a parameter `setFetchFails`.
-/

namespace WorkoutApp

/-- Row of the `workouts` table (schema.ts): id generated, userId, name,
date (timestamp), nullable notes, createdAt, updatedAt. -/
structure Workout where
  id : Nat
  userId : String
  name : String
  date : Nat
  notes : Option String
  createdAt : Nat
  updatedAt : Nat
deriving Repr, DecidableEq

/-- Row of the `exercises` table (schema.ts). -/
structure Exercise where
  id : Nat
  workoutId : Nat
  exerciseLibraryId : Option Nat
  name : String
  order : Int
  notes : Option String
  createdAt : Nat
deriving Repr, DecidableEq

/-- Row of the `sets` table (schema.ts); named `SetRow` because `Set` is taken. -/
structure SetRow where
  id : Nat
  exerciseId : Nat
  setNumber : Int
  reps : Int
  weight : Option Int
  createdAt : Nat
deriving Repr, DecidableEq

/-- The relational store state: the three owner-scoped tables plus the
identity counter that generates the next workout id. -/
structure DB where
  workouts : List Workout
  exercises : List Exercise
  sets : List SetRow
  nextWorkoutId : Nat
deriving Repr, DecidableEq

/-- Well-formedness of the store: primary keys of `workouts` are unique
(`id` is a generated-always identity column). -/
def WF (db : DB) : Prop := (db.workouts.map Workout.id).Nodup

instance (db : DB) : Decidable (WF db) := by unfold WF; infer_instance

/-- The repeated drizzle filter `and(eq(workouts.id, workoutId), eq(workouts.userId, userId))`. -/
def matchRow (workoutId : Nat) (userId : String) (w : Workout) : Bool :=
  w.id == workoutId && w.userId == userId

/-- Milliseconds in one (local) calendar day. -/
def msPerDay : Nat := 86400000

/-- `new Date(date)` followed by `setHours(0, 0, 0, 0)` in local time. -/
def startOfDay (t : Nat) : Nat := (t / msPerDay) * msPerDay

/-- `new Date(date)` followed by `setHours(23, 59, 59, 999)` in local time. -/
def endOfDay (t : Nat) : Nat :=
  startOfDay t + (23 * 3600000 + 59 * 60000 + 59 * 1000 + 999)

/-- The sort key of `orderBy(workouts.date)`. -/
def byDate (a b : Workout) : Prop := a.date ≤ b.date

instance : DecidableRel byDate := fun a b => Nat.decLe a.date b.date

instance : IsTotal Workout byDate := ⟨fun a b => Nat.le_total a.date b.date⟩

instance : IsTrans Workout byDate := ⟨fun _ _ _ => Nat.le_trans⟩

/-- The sort key of `orderBy(exercises.order)`. -/
def byOrder (a b : Exercise) : Prop := a.order ≤ b.order

instance : DecidableRel byOrder := fun a b => Int.decLe a.order b.order

instance : IsTotal Exercise byOrder := ⟨fun a b => Int.le_total a.order b.order⟩

instance : IsTrans Exercise byOrder := ⟨fun _ _ _ => Int.le_trans⟩

/-- The sort key of `orderBy(sets.setNumber)`. -/
def bySetNumber (a b : SetRow) : Prop := a.setNumber ≤ b.setNumber

instance : DecidableRel bySetNumber := fun a b => Int.decLe a.setNumber b.setNumber

instance : IsTotal SetRow bySetNumber := ⟨fun a b => Int.le_total a.setNumber b.setNumber⟩

instance : IsTrans SetRow bySetNumber := ⟨fun _ _ _ => Int.le_trans⟩

/-- `getUserWorkouts` (workouts.ts): select workouts where userId matches,
ordered by date. -/
def getUserWorkouts (db : DB) (userId : String) : List Workout :=
  (db.workouts.filter (fun w => w.userId == userId)).insertionSort byDate

/-- `getUserWorkoutsByDate` (workouts.ts): select workouts where userId matches
and date lies between start of day and end of day, ordered by date. -/
def getUserWorkoutsByDate (db : DB) (userId : String) (date : Nat) : List Workout :=
  (db.workouts.filter (fun w =>
      w.userId == userId
        && decide (startOfDay date ≤ w.date)
        && decide (w.date ≤ endOfDay date))).insertionSort byDate

/-- `getUserWorkout` (workouts.ts): select with the combined id+owner filter,
limit 1, then `result[0] || null`. -/
def getUserWorkout (db : DB) (workoutId : Nat) (userId : String) : Option Workout :=
  (db.workouts.filter (matchRow workoutId userId)).head?

/-- The optional update payload `{name?, date?, notes?}` of `updateWorkout`. -/
structure UpdateData where
  name : Option String
  date : Option Nat
  notes : Option String
deriving Repr, DecidableEq

/-- The drizzle `.set({...data, updatedAt: new Date()})` applied to one row:
keys whose value is undefined are skipped, `updatedAt` is always written. -/
def applyUpdate (data : UpdateData) (now : Nat) (w : Workout) : Workout :=
  { w with
    name := data.name.getD w.name
    date := data.date.getD w.date
    notes := match data.notes with
      | some n => some n
      | none => w.notes
    updatedAt := now }

/-- `updateWorkout` (workouts.ts): UPDATE rows matching the combined id+owner
filter, RETURNING the updated rows, of which `[workout]` takes the first
(undefined, here `none`, when no row matched). Returns the destructured row
together with the post-state of the store. -/
def updateWorkout (db : DB) (workoutId : Nat) (userId : String)
    (data : UpdateData) (now : Nat) : Option Workout × DB :=
  (((db.workouts.filter (matchRow workoutId userId)).head?).map (applyUpdate data now),
   { db with
      workouts := db.workouts.map (fun w =>
        if matchRow workoutId userId w then applyUpdate data now w else w) })

/-- The insert payload of `createWorkout` (workouts.ts). -/
structure CreateData where
  name : String
  date : Nat
  notes : Option String
  userId : String
deriving Repr, DecidableEq

/-- `createWorkout` (workouts.ts): INSERT with values name/date/notes/userId,
RETURNING the created row; id is the generated identity value and
createdAt/updatedAt take their `defaultNow()` column defaults. -/
def createWorkout (db : DB) (data : CreateData) (now : Nat) : Workout × DB :=
  let w : Workout :=
    { id := db.nextWorkoutId
      userId := data.userId
      name := data.name
      date := data.date
      notes := data.notes
      createdAt := now
      updatedAt := now }
  (w, { db with workouts := db.workouts ++ [w], nextWorkoutId := db.nextWorkoutId + 1 })

/-- One exercise of the aggregate returned by `getUserWorkoutWithExercises`:
`{...exercise, sets: exerciseSets}`. -/
structure ExerciseWithSets where
  exercise : Exercise
  sets : List SetRow
deriving Repr, DecidableEq

/-- The aggregate returned by `getUserWorkoutWithExercises`:
`{...workout[0], exercises: exercisesWithSets}`. -/
structure WorkoutWithExercises where
  workout : Workout
  exercises : List ExerciseWithSets
deriving Repr, DecidableEq

/-- The per-exercise sets query of `getUserWorkoutWithExercises`:
select sets where exerciseId matches, ordered by setNumber. -/
def setsForExercise (db : DB) (e : Exercise) : List SetRow :=
  (db.sets.filter (fun s => s.exerciseId == e.id)).insertionSort bySetNumber

/-- `Promise.all` over fallible per-exercise fetches: the aggregate list when
every fetch resolves, a rejection as soon as any fetch rejects. -/
def collectSets (f : Exercise → Except Unit ExerciseWithSets) :
    List Exercise → Except Unit (List ExerciseWithSets)
  | [] => Except.ok []
  | e :: rest =>
    match f e with
    | Except.error u => Except.error u
    | Except.ok ews =>
      match collectSets f rest with
      | Except.error u => Except.error u
      | Except.ok tail => Except.ok (ews :: tail)

/-- The exercises query of `getUserWorkoutWithExercises`: select exercises
where workoutId matches, ordered by `order`. -/
def exercisesOfWorkout (db : DB) (workoutId : Nat) : List Exercise :=
  (db.exercises.filter (fun e => e.workoutId == workoutId)).insertionSort byOrder

/-- One per-exercise sets fetch of `getUserWorkoutWithExercises`: the
aggregated exercise when the store resolves it, a rejection when the store
rejects that sets query. -/
def fetchExercise (db : DB) (setFetchFails : Nat → Bool) (e : Exercise) :
    Except Unit ExerciseWithSets :=
  if setFetchFails e.id then Except.error ()
  else Except.ok { exercise := e, sets := setsForExercise db e }

/-- `getUserWorkoutWithExercises` (workouts.ts): the owner-checked workout
fetch first (returning null when it misses), then the exercises of the
workout ordered by `order`, then for each exercise its sets ordered by
setNumber via `Promise.all`. `setFetchFails` says, per exercise id, whether
the store rejects that per-exercise sets query. -/
def getUserWorkoutWithExercises (db : DB) (setFetchFails : Nat → Bool)
    (workoutId : Nat) (userId : String) :
    Except Unit (Option WorkoutWithExercises) :=
  match (db.workouts.filter (matchRow workoutId userId)).head? with
  | none => Except.ok none
  | some w =>
    match collectSets (fetchExercise db setFetchFails)
        (exercisesOfWorkout db workoutId) with
    | Except.error u => Except.error u
    | Except.ok ews => Except.ok (some { workout := w, exercises := ews })

/-- One zod issue: the path of the offending field and its message. -/
structure FieldIssue where
  field : String
  message : String
deriving Repr, DecidableEq

/-- Raw payload reaching `updateWorkoutAction` before validation: any of the
declared keys may be absent at runtime. -/
structure RawUpdateInput where
  id : Option Int
  name : Option String
  date : Option String
  notes : Option String
deriving Repr, DecidableEq

/-- Payload shape after `updateWorkoutSchema.parse` succeeds. -/
structure ValidUpdateInput where
  id : Int
  name : String
  date : String
  notes : Option String
deriving Repr, DecidableEq

/-- The issues `updateWorkoutSchema` (actions.ts) reports on a payload:
id required positive integer, name required with 1..255 chars, date required
non-empty string, notes optional with at most 1000 chars. -/
def updateWorkoutSchemaIssues (input : RawUpdateInput) : List FieldIssue :=
  (match input.id with
    | none => [⟨"id", "Required"⟩]
    | some i => if 0 < i then [] else [⟨"id", "Number must be greater than 0"⟩]) ++
  (match input.name with
    | none => [⟨"name", "Required"⟩]
    | some n =>
      (if n.length < 1 then [⟨"name", "Name is required"⟩] else []) ++
      (if 255 < n.length then [⟨"name", "Name too long"⟩] else [])) ++
  (match input.date with
    | none => [⟨"date", "Required"⟩]
    | some d => if d.length < 1 then [⟨"date", "Date is required"⟩] else []) ++
  (match input.notes with
    | none => []
    | some m => if 1000 < m.length then [⟨"notes", "Notes too long"⟩] else [])

/-- `updateWorkoutSchema.parse`: the validated payload, or the list of issues
carried by the thrown ZodError. -/
def updateWorkoutSchemaParse (input : RawUpdateInput) :
    Except (List FieldIssue) ValidUpdateInput :=
  match input.id, input.name, input.date with
  | some i, some n, some d =>
    if (updateWorkoutSchemaIssues input).isEmpty then
      Except.ok ⟨i, n, d, input.notes⟩
    else
      Except.error (updateWorkoutSchemaIssues input)
  | none, _, _ => Except.error (updateWorkoutSchemaIssues input)
  | _, none, _ => Except.error (updateWorkoutSchemaIssues input)
  | _, _, none => Except.error (updateWorkoutSchemaIssues input)

/-- Raw payload reaching `createWorkoutAction` before validation. -/
structure RawCreateInput where
  name : Option String
  date : Option String
  notes : Option String
deriving Repr, DecidableEq

/-- Payload shape after `createWorkoutSchema.parse` succeeds. -/
structure ValidCreateInput where
  name : String
  date : String
  notes : Option String
deriving Repr, DecidableEq

/-- The issues `createWorkoutSchema` (create action file) reports on a payload:
name required with 1..255 chars, date required non-empty string, notes
optional with at most 1000 chars. -/
def createWorkoutSchemaIssues (input : RawCreateInput) : List FieldIssue :=
  (match input.name with
    | none => [⟨"name", "Required"⟩]
    | some n =>
      (if n.length < 1 then [⟨"name", "Name is required"⟩] else []) ++
      (if 255 < n.length then [⟨"name", "Name too long"⟩] else [])) ++
  (match input.date with
    | none => [⟨"date", "Required"⟩]
    | some d => if d.length < 1 then [⟨"date", "Date is required"⟩] else []) ++
  (match input.notes with
    | none => []
    | some m => if 1000 < m.length then [⟨"notes", "Notes too long"⟩] else [])

/-- `createWorkoutSchema.parse`: the validated payload, or the list of issues
carried by the thrown ZodError. -/
def createWorkoutSchemaParse (input : RawCreateInput) :
    Except (List FieldIssue) ValidCreateInput :=
  match input.name, input.date with
  | some n, some d =>
    if (createWorkoutSchemaIssues input).isEmpty then
      Except.ok ⟨n, d, input.notes⟩
    else
      Except.error (createWorkoutSchemaIssues input)
  | none, _ => Except.error (createWorkoutSchemaIssues input)
  | _, none => Except.error (createWorkoutSchemaIssues input)

/-- The structured result shape a server action returns:
`{success: true, data}` or `{success: false, error}`. -/
inductive ActionResult (α : Type) where
  | success (data : α)
  | failure (error : String)
deriving Repr, DecidableEq

/-- What the caller of a server action observes: a returned structured result,
or a ZodError thrown out of `.parse` (no surrounding try/catch). -/
inductive ActionOutcome (α : Type) where
  | returned (result : ActionResult α)
  | threwValidation (issues : List FieldIssue)
deriving Repr, DecidableEq

/-- `updateWorkoutAction` (actions.ts): `.parse` first (throwing on bad input),
then the auth check, then inside try/catch the date parse and the gateway
update. `authUserId` models the identity oracle, `dbFails` a store fault
caught by the catch block, `parseDate` the external
`new Date(s + "T00:00:00")` conversion. Returns the outcome paired with the
post-state of the store. -/
def updateWorkoutAction (db : DB) (authUserId : Option String) (dbFails : Bool)
    (parseDate : String → Nat) (now : Nat) (input : RawUpdateInput) :
    ActionOutcome Workout × DB :=
  match updateWorkoutSchemaParse input with
  | Except.error issues => (ActionOutcome.threwValidation issues, db)
  | Except.ok v =>
    match authUserId with
    | none => (ActionOutcome.returned (ActionResult.failure "Unauthorized"), db)
    | some userId =>
      if dbFails then
        (ActionOutcome.returned (ActionResult.failure "Failed to update workout"), db)
      else
        let r := updateWorkout db v.id.toNat userId
          ⟨some v.name, some (parseDate v.date), v.notes⟩ now
        match r.1 with
        | none => (ActionOutcome.returned (ActionResult.failure "Workout not found"), r.2)
        | some w => (ActionOutcome.returned (ActionResult.success w), r.2)

/-- `createWorkoutAction` (create action file): `.parse` first (throwing on
bad input), then the auth check, then inside try/catch the date parse and
the gateway insert. -/
def createWorkoutAction (db : DB) (authUserId : Option String) (dbFails : Bool)
    (parseDate : String → Nat) (now : Nat) (input : RawCreateInput) :
    ActionOutcome Workout × DB :=
  match createWorkoutSchemaParse input with
  | Except.error issues => (ActionOutcome.threwValidation issues, db)
  | Except.ok v =>
    match authUserId with
    | none => (ActionOutcome.returned (ActionResult.failure "Unauthorized"), db)
    | some userId =>
      if dbFails then
        (ActionOutcome.returned (ActionResult.failure "Failed to create workout"), db)
      else
        let r := createWorkout db ⟨v.name, parseDate v.date, v.notes, userId⟩ now
        (ActionOutcome.returned (ActionResult.success r.1), r.2)

/-! ### Helper lemmas -/

/-- Unique workout ids make rows with equal ids equal. -/
lemma wf_inj {db : DB} (hwf : WF db) {x y : Workout}
    (hx : x ∈ db.workouts) (hy : y ∈ db.workouts) (h : x.id = y.id) : x = y :=
  List.inj_on_of_nodup_map hwf hx hy h

/-- A map that fixes every element of the list is the identity on it. -/
lemma map_id_of {α : Type} (l : List α) (f : α → α) (h : ∀ a ∈ l, f a = a) :
    l.map f = l := by
  induction l with
  | nil => rfl
  | cons x xs ih =>
    rw [List.map_cons, h x (List.mem_cons_self x xs),
      ih (fun a ha => h a (List.mem_cons_of_mem x ha))]

/-- Unpacking the combined id+owner filter. -/
lemma matchRow_eq_true {i : Nat} {u : String} {w : Workout} :
    matchRow i u w = true ↔ w.id = i ∧ w.userId = u := by
  simp [matchRow]

/-- When no row of the store satisfies the id+owner filter, the filter is empty. -/
lemma filter_match_eq_nil {db : DB} {i : Nat} {u : String}
    (h : ∀ x ∈ db.workouts, ¬(x.id = i ∧ x.userId = u)) :
    db.workouts.filter (matchRow i u) = [] := by
  rw [List.filter_eq_nil_iff]
  intro x hx hmr
  exact h x hx (matchRow_eq_true.1 hmr)

/-- In a store whose caller identity misses a row with the looked-up id,
no row at all satisfies the id+owner filter. -/
lemma no_match_of_other_owner {db : DB} {w : Workout} {A : String}
    (hwf : WF db) (hw : w ∈ db.workouts) (hne : w.userId ≠ A) :
    ∀ x ∈ db.workouts, ¬(x.id = w.id ∧ x.userId = A) := by
  intro x hx ⟨hid, hu⟩
  have hxw : x = w := wf_inj hwf hx hw hid
  exact hne (hxw ▸ hu)

/-- With unique ids, the id+owner filter on a matching row of the list
returns exactly that row. -/
lemma filter_match_singleton_list {w : Workout} {l : List Workout}
    (hwf : (l.map Workout.id).Nodup) (hw : w ∈ l) :
    l.filter (matchRow w.id w.userId) = [w] := by
  induction l with
  | nil => cases hw
  | cons x xs ih =>
    rw [List.map_cons, List.nodup_cons] at hwf
    rcases List.mem_cons.1 hw with hxw | hmem
    · subst hxw
      rw [List.filter_cons_of_pos (by simp [matchRow])]
      have hnil : xs.filter (matchRow w.id w.userId) = [] := by
        rw [List.filter_eq_nil_iff]
        intro y hy hmr
        exact hwf.1 ((matchRow_eq_true.1 hmr).1 ▸ List.mem_map_of_mem Workout.id hy)
      rw [hnil]
    · have hxid : x.id ≠ w.id := by
        intro h
        exact hwf.1 (h ▸ List.mem_map_of_mem Workout.id hmem)
      have hneg : ¬ (matchRow w.id w.userId x = true) := by
        intro hmr
        exact hxid (matchRow_eq_true.1 hmr).1
      rw [List.filter_cons_of_neg hneg]
      exact ih hwf.2 hmem

/-- With unique ids, the id+owner filter on a matching in-store row returns
exactly that row. -/
lemma filter_match_singleton {db : DB} {w : Workout}
    (hwf : WF db) (hw : w ∈ db.workouts) :
    db.workouts.filter (matchRow w.id w.userId) = [w] :=
  filter_match_singleton_list hwf hw

/-! ### C1 and C2 -/

/-- C1: for every caller identity A and every stored workout w owned by a
different identity, `getUserWorkout` returns the not-found value (null) rather
than w, and `updateWorkout` reports not found and leaves the store, in
particular the row of w, entirely unchanged; moreover no read operation of
the gateway ever returns a workout whose stored owner differs from A. -/
theorem c1_owner_isolation (db : DB) (A : String) (w : Workout)
    (data : UpdateData) (now : Nat)
    (hwf : WF db) (hw : w ∈ db.workouts) (hne : w.userId ≠ A) :
    getUserWorkout db w.id A = none ∧
    (updateWorkout db w.id A data now).1 = none ∧
    (updateWorkout db w.id A data now).2 = db ∧
    (∀ x ∈ getUserWorkouts db A, x.userId = A) ∧
    (∀ q, ∀ x ∈ getUserWorkoutsByDate db A q, x.userId = A) ∧
    (∀ (ff : Nat → Bool) (wid : Nat) (agg : WorkoutWithExercises),
      getUserWorkoutWithExercises db ff wid A = Except.ok (some agg) →
        agg.workout.userId = A) := by
  have hno := no_match_of_other_owner hwf hw hne
  have hnil : db.workouts.filter (matchRow w.id A) = [] := filter_match_eq_nil hno
  have hmap : db.workouts.map (fun x =>
      if matchRow w.id A x then applyUpdate data now x else x) = db.workouts := by
    apply map_id_of
    intro x hx
    rw [if_neg]
    intro hmr
    exact hno x hx (matchRow_eq_true.1 hmr)
  refine ⟨?_, ?_, ?_, ?_, ?_, ?_⟩
  · rw [getUserWorkout, hnil]; rfl
  · rw [updateWorkout, hnil]; rfl
  · rw [updateWorkout]; simp only [hmap]
  · intro x hx
    rw [getUserWorkouts, List.mem_insertionSort, List.mem_filter] at hx
    simpa using hx.2
  · intro q x hx
    rw [getUserWorkoutsByDate, List.mem_insertionSort, List.mem_filter] at hx
    have hx2 := hx.2
    simp only [Bool.and_eq_true, beq_iff_eq] at hx2
    exact hx2.1.1
  · intro ff wid agg hagg
    cases hhead : (db.workouts.filter (matchRow wid A)).head? with
    | none =>
      rw [getUserWorkoutWithExercises, hhead] at hagg
      cases hagg
    | some w0 =>
      cases hcs : collectSets (fetchExercise db ff) (exercisesOfWorkout db wid) with
      | error u =>
        rw [getUserWorkoutWithExercises, hhead, hcs] at hagg
        cases hagg
      | ok ews =>
        rw [getUserWorkoutWithExercises, hhead, hcs] at hagg
        cases hagg
        have hmem : w0 ∈ db.workouts.filter (matchRow wid A) :=
          List.mem_of_mem_head? hhead
        rw [List.mem_filter] at hmem
        exact (matchRow_eq_true.1 hmem.2).2

/-- Concrete instance of C1: caller alice neither reads nor changes a workout
of bob. -/
theorem c1_owner_isolation_witness :
    getUserWorkout
      ⟨[⟨1, "bob", "Leg Day", 0, none, 0, 0⟩], [], [], 2⟩ 1 "alice" = none ∧
    (updateWorkout ⟨[⟨1, "bob", "Leg Day", 0, none, 0, 0⟩], [], [], 2⟩ 1 "alice"
      ⟨some "stolen", none, none⟩ 5).1 = none ∧
    (updateWorkout ⟨[⟨1, "bob", "Leg Day", 0, none, 0, 0⟩], [], [], 2⟩ 1 "alice"
      ⟨some "stolen", none, none⟩ 5).2
      = ⟨[⟨1, "bob", "Leg Day", 0, none, 0, 0⟩], [], [], 2⟩ ∧
    (∀ x ∈ getUserWorkouts ⟨[⟨1, "bob", "Leg Day", 0, none, 0, 0⟩], [], [], 2⟩ "alice",
      x.userId = "alice") ∧
    (∀ q, ∀ x ∈ getUserWorkoutsByDate
        ⟨[⟨1, "bob", "Leg Day", 0, none, 0, 0⟩], [], [], 2⟩ "alice" q,
      x.userId = "alice") ∧
    (∀ (ff : Nat → Bool) (wid : Nat) (agg : WorkoutWithExercises),
      getUserWorkoutWithExercises ⟨[⟨1, "bob", "Leg Day", 0, none, 0, 0⟩], [], [], 2⟩
          ff wid "alice" = Except.ok (some agg) →
        agg.workout.userId = "alice") :=
  c1_owner_isolation ⟨[⟨1, "bob", "Leg Day", 0, none, 0, 0⟩], [], [], 2⟩ "alice"
    ⟨1, "bob", "Leg Day", 0, none, 0, 0⟩ ⟨some "stolen", none, none⟩ 5
    (by decide) (by decide) (by decide)

/-- C2: a lookup or update of a nonexistent id and a lookup or update of an
id owned by somebody else are indistinguishable: the respective results of
`getUserWorkout` and of `updateWorkout` are equal in the two runs. -/
theorem c2_not_found_indistinguishable (db : DB) (A : String) (id1 id2 : Nat)
    (data : UpdateData) (now : Nat) (w : Workout)
    (hwf : WF db)
    (h1 : ∀ x ∈ db.workouts, x.id ≠ id1)
    (hw : w ∈ db.workouts) (hid : w.id = id2) (hne : w.userId ≠ A) :
    getUserWorkout db id1 A = getUserWorkout db id2 A ∧
    (updateWorkout db id1 A data now).1 = (updateWorkout db id2 A data now).1 := by
  have hnil1 : db.workouts.filter (matchRow id1 A) = [] :=
    filter_match_eq_nil (fun x hx h => h1 x hx h.1)
  have hnil2 : db.workouts.filter (matchRow id2 A) = [] := by
    subst hid
    exact filter_match_eq_nil (no_match_of_other_owner hwf hw hne)
  constructor
  · rw [getUserWorkout, getUserWorkout, hnil1, hnil2]
  · rw [updateWorkout, updateWorkout, hnil1, hnil2]

/-- Concrete instance of C2: for caller alice, the missing id 7 and the id 1
owned by bob produce equal results on lookup and on update. -/
theorem c2_not_found_indistinguishable_witness :
    getUserWorkout ⟨[⟨1, "bob", "Leg Day", 0, none, 0, 0⟩], [], [], 2⟩ 7 "alice"
      = getUserWorkout ⟨[⟨1, "bob", "Leg Day", 0, none, 0, 0⟩], [], [], 2⟩ 1 "alice" ∧
    (updateWorkout ⟨[⟨1, "bob", "Leg Day", 0, none, 0, 0⟩], [], [], 2⟩ 7 "alice"
        ⟨none, some 3, none⟩ 9).1
      = (updateWorkout ⟨[⟨1, "bob", "Leg Day", 0, none, 0, 0⟩], [], [], 2⟩ 1 "alice"
        ⟨none, some 3, none⟩ 9).1 :=
  c2_not_found_indistinguishable ⟨[⟨1, "bob", "Leg Day", 0, none, 0, 0⟩], [], [], 2⟩
    "alice" 7 1 ⟨none, some 3, none⟩ 9 ⟨1, "bob", "Leg Day", 0, none, 0, 0⟩
    (by decide) (by decide) (by decide) (by decide) (by decide)

/-! ### C5, C9, C10 -/

/-- The drizzle set clause never touches the primary key. -/
lemma applyUpdate_id (data : UpdateData) (now : Nat) (w : Workout) :
    (applyUpdate data now w).id = w.id := rfl

/-- The drizzle set clause never touches the owner column. -/
lemma applyUpdate_userId (data : UpdateData) (now : Nat) (w : Workout) :
    (applyUpdate data now w).userId = w.userId := rfl

/-- The drizzle set clause never touches createdAt. -/
lemma applyUpdate_createdAt (data : UpdateData) (now : Nat) (w : Workout) :
    (applyUpdate data now w).createdAt = w.createdAt := rfl

/-- The drizzle set clause always writes updatedAt. -/
lemma applyUpdate_updatedAt (data : UpdateData) (now : Nat) (w : Workout) :
    (applyUpdate data now w).updatedAt = now := rfl

/-- A name absent from the payload is skipped by the set clause. -/
lemma applyUpdate_name_none {data : UpdateData} (now : Nat) (w : Workout)
    (h : data.name = none) : (applyUpdate data now w).name = w.name := by
  simp [applyUpdate, h]

/-- A date absent from the payload is skipped by the set clause. -/
lemma applyUpdate_date_none {data : UpdateData} (now : Nat) (w : Workout)
    (h : data.date = none) : (applyUpdate data now w).date = w.date := by
  simp [applyUpdate, h]

/-- Notes absent from the payload are skipped by the set clause. -/
lemma applyUpdate_notes_none {data : UpdateData} (now : Nat) (w : Workout)
    (h : data.notes = none) : (applyUpdate data now w).notes = w.notes := by
  simp [applyUpdate, h]

/-- C5: after any `updateWorkout`, every row of the store descends from a
prior row with the same id, owner and createdAt, rows that did not match are
untouched, a matched row gets updatedAt set to the current time while fields
absent from the payload keep their prior values; and the returned row is the
updated image of a prior row matching both id and owner under the same frame
conditions. -/
theorem c5_update_frame (db : DB) (workoutId : Nat) (userId : String)
    (data : UpdateData) (now : Nat) :
    (∀ w' ∈ (updateWorkout db workoutId userId data now).2.workouts,
      ∃ w, w ∈ db.workouts ∧ w'.id = w.id ∧ w'.userId = w.userId ∧
        w'.createdAt = w.createdAt ∧
        (w' = w ∨ (w.id = workoutId ∧ w.userId = userId ∧ w'.updatedAt = now ∧
          (data.name = none → w'.name = w.name) ∧
          (data.date = none → w'.date = w.date) ∧
          (data.notes = none → w'.notes = w.notes)))) ∧
    (∀ w', (updateWorkout db workoutId userId data now).1 = some w' →
      ∃ w, w ∈ db.workouts ∧ w.id = workoutId ∧ w.userId = userId ∧
        w'.id = w.id ∧ w'.userId = w.userId ∧ w'.createdAt = w.createdAt ∧
        w'.updatedAt = now ∧
        (data.name = none → w'.name = w.name) ∧
        (data.date = none → w'.date = w.date) ∧
        (data.notes = none → w'.notes = w.notes)) := by
  constructor
  · intro w' hw'
    rw [updateWorkout] at hw'
    simp only [List.mem_map] at hw'
    obtain ⟨w, hw, heq⟩ := hw'
    by_cases hmr : matchRow workoutId userId w = true
    · rw [if_pos hmr] at heq
      obtain ⟨hid, hu⟩ := matchRow_eq_true.1 hmr
      subst heq
      exact ⟨w, hw, applyUpdate_id data now w, applyUpdate_userId data now w,
        applyUpdate_createdAt data now w,
        Or.inr ⟨hid, hu, applyUpdate_updatedAt data now w,
          applyUpdate_name_none now w, applyUpdate_date_none now w,
          applyUpdate_notes_none now w⟩⟩
    · rw [if_neg hmr] at heq
      subst heq
      exact ⟨w, hw, rfl, rfl, rfl, Or.inl rfl⟩
  · intro w' hret
    rw [updateWorkout] at hret
    simp only [Option.map_eq_some'] at hret
    obtain ⟨w, hhead, heq⟩ := hret
    have hwfil : w ∈ db.workouts.filter (matchRow workoutId userId) :=
      List.mem_of_mem_head? hhead
    rw [List.mem_filter] at hwfil
    obtain ⟨hid, hu⟩ := matchRow_eq_true.1 hwfil.2
    subst heq
    exact ⟨w, hwfil.1, hid, hu, applyUpdate_id data now w,
      applyUpdate_userId data now w, applyUpdate_createdAt data now w,
      applyUpdate_updatedAt data now w, applyUpdate_name_none now w,
      applyUpdate_date_none now w, applyUpdate_notes_none now w⟩

/-- Concrete instance of C5: updating only the name of a stored workout of
alice returns a row that keeps id, owner, createdAt, date and notes, with
updatedAt set to the call time. -/
theorem c5_update_frame_witness :
    ∃ w, w ∈ (⟨[⟨1, "alice", "A", 4, some "n", 2, 3⟩], [], [], 2⟩ : DB).workouts ∧
      w.id = 1 ∧ w.userId = "alice" ∧
      (⟨1, "alice", "B", 4, some "n", 2, 9⟩ : Workout).id = w.id ∧
      (⟨1, "alice", "B", 4, some "n", 2, 9⟩ : Workout).userId = w.userId ∧
      (⟨1, "alice", "B", 4, some "n", 2, 9⟩ : Workout).createdAt = w.createdAt ∧
      (⟨1, "alice", "B", 4, some "n", 2, 9⟩ : Workout).updatedAt = 9 ∧
      ((⟨some "B", none, none⟩ : UpdateData).name = none →
        (⟨1, "alice", "B", 4, some "n", 2, 9⟩ : Workout).name = w.name) ∧
      ((⟨some "B", none, none⟩ : UpdateData).date = none →
        (⟨1, "alice", "B", 4, some "n", 2, 9⟩ : Workout).date = w.date) ∧
      ((⟨some "B", none, none⟩ : UpdateData).notes = none →
        (⟨1, "alice", "B", 4, some "n", 2, 9⟩ : Workout).notes = w.notes) :=
  (c5_update_frame ⟨[⟨1, "alice", "A", 4, some "n", 2, 3⟩], [], [], 2⟩ 1 "alice"
      ⟨some "B", none, none⟩ 9).2
    ⟨1, "alice", "B", 4, some "n", 2, 9⟩ (by decide)

/-- C9: creating a workout and immediately looking it up by its generated id
under the same owner returns exactly the created row, whose name, date and
notes are the supplied ones, whose userId is the owner, and whose createdAt
equals its updatedAt. -/
theorem c9_create_roundtrip (db : DB) (owner name : String) (date : Nat)
    (notes : Option String) (now : Nat)
    (hfresh : ∀ w ∈ db.workouts, w.id < db.nextWorkoutId) :
    getUserWorkout (createWorkout db ⟨name, date, notes, owner⟩ now).2
        (createWorkout db ⟨name, date, notes, owner⟩ now).1.id owner
      = some (createWorkout db ⟨name, date, notes, owner⟩ now).1 ∧
    (createWorkout db ⟨name, date, notes, owner⟩ now).1.name = name ∧
    (createWorkout db ⟨name, date, notes, owner⟩ now).1.date = date ∧
    (createWorkout db ⟨name, date, notes, owner⟩ now).1.notes = notes ∧
    (createWorkout db ⟨name, date, notes, owner⟩ now).1.userId = owner ∧
    (createWorkout db ⟨name, date, notes, owner⟩ now).1.createdAt
      = (createWorkout db ⟨name, date, notes, owner⟩ now).1.updatedAt := by
  have hnil : db.workouts.filter (matchRow db.nextWorkoutId owner) = [] :=
    filter_match_eq_nil (fun x hx h => absurd h.1 (Nat.ne_of_lt (hfresh x hx)))
  refine ⟨?_, rfl, rfl, rfl, rfl, rfl⟩
  show ((db.workouts ++ ([⟨db.nextWorkoutId, owner, name, date, notes, now, now⟩] : List Workout)).filter
      (matchRow db.nextWorkoutId owner)).head?
    = some (⟨db.nextWorkoutId, owner, name, date, notes, now, now⟩ : Workout)
  rw [List.filter_append, hnil, List.nil_append,
    List.filter_cons_of_pos (by simp [matchRow]), List.filter_nil]
  rfl

/-- Concrete instance of C9: alice creates a workout in an empty store and
reads it back unchanged. -/
theorem c9_create_roundtrip_witness :
    getUserWorkout (createWorkout ⟨[], [], [], 1⟩ ⟨"Leg Day", 77, some "heavy", "alice"⟩ 5).2
        (createWorkout ⟨[], [], [], 1⟩ ⟨"Leg Day", 77, some "heavy", "alice"⟩ 5).1.id "alice"
      = some (createWorkout ⟨[], [], [], 1⟩ ⟨"Leg Day", 77, some "heavy", "alice"⟩ 5).1 ∧
    (createWorkout ⟨[], [], [], 1⟩ ⟨"Leg Day", 77, some "heavy", "alice"⟩ 5).1.name = "Leg Day" ∧
    (createWorkout ⟨[], [], [], 1⟩ ⟨"Leg Day", 77, some "heavy", "alice"⟩ 5).1.date = 77 ∧
    (createWorkout ⟨[], [], [], 1⟩ ⟨"Leg Day", 77, some "heavy", "alice"⟩ 5).1.notes = some "heavy" ∧
    (createWorkout ⟨[], [], [], 1⟩ ⟨"Leg Day", 77, some "heavy", "alice"⟩ 5).1.userId = "alice" ∧
    (createWorkout ⟨[], [], [], 1⟩ ⟨"Leg Day", 77, some "heavy", "alice"⟩ 5).1.createdAt
      = (createWorkout ⟨[], [], [], 1⟩ ⟨"Leg Day", 77, some "heavy", "alice"⟩ 5).1.updatedAt :=
  c9_create_roundtrip ⟨[], [], [], 1⟩ "alice" "Leg Day" 77 (some "heavy") 5
    (by intro w hw; cases hw)

/-- C10: a matching `updateWorkout` with the empty field object is not a
no-op: it returns the row with updatedAt overwritten by the current time, the
store now holds that row, name, date and notes are unchanged, and whenever the
current time is later than the stored updatedAt the successful update strictly
advances updatedAt. -/
theorem c10_empty_update_advances_updatedAt (db : DB) (now : Nat) (w : Workout)
    (hwf : WF db) (hw : w ∈ db.workouts) :
    (updateWorkout db w.id w.userId ⟨none, none, none⟩ now).1
        = some { w with updatedAt := now } ∧
    { w with updatedAt := now }
        ∈ (updateWorkout db w.id w.userId ⟨none, none, none⟩ now).2.workouts ∧
    ({ w with updatedAt := now } : Workout).name = w.name ∧
    ({ w with updatedAt := now } : Workout).date = w.date ∧
    ({ w with updatedAt := now } : Workout).notes = w.notes ∧
    (w.updatedAt < now →
      w.updatedAt < ({ w with updatedAt := now } : Workout).updatedAt) := by
  have hfil : db.workouts.filter (matchRow w.id w.userId) = [w] :=
    filter_match_singleton hwf hw
  refine ⟨?_, ?_, rfl, rfl, rfl, fun h => h⟩
  · rw [updateWorkout, hfil]; rfl
  · rw [updateWorkout]
    have hrow : ({ w with updatedAt := now } : Workout)
        = (fun x => if matchRow w.id w.userId x
            then applyUpdate ⟨none, none, none⟩ now x else x) w := by
      show ({ w with updatedAt := now } : Workout)
        = if matchRow w.id w.userId w = true
          then applyUpdate ⟨none, none, none⟩ now w else w
      have hmt : matchRow w.id w.userId w = true := by simp [matchRow]
      rw [hmt, if_pos rfl]
      rfl
    rw [hrow]
    exact List.mem_map_of_mem _ hw

/-- Concrete instance of C10: an empty update by alice on her stored workout
returns the row with only updatedAt advanced from 3 to 9. -/
theorem c10_empty_update_advances_updatedAt_witness :
    (updateWorkout ⟨[⟨1, "alice", "A", 4, some "n", 2, 3⟩], [], [], 2⟩ 1 "alice"
        ⟨none, none, none⟩ 9).1
      = some ⟨1, "alice", "A", 4, some "n", 2, 9⟩ ∧
    (⟨1, "alice", "A", 4, some "n", 2, 9⟩ : Workout)
      ∈ (updateWorkout ⟨[⟨1, "alice", "A", 4, some "n", 2, 3⟩], [], [], 2⟩ 1 "alice"
        ⟨none, none, none⟩ 9).2.workouts ∧
    (⟨1, "alice", "A", 4, some "n", 2, 9⟩ : Workout).name = "A" ∧
    (⟨1, "alice", "A", 4, some "n", 2, 9⟩ : Workout).date = 4 ∧
    (⟨1, "alice", "A", 4, some "n", 2, 9⟩ : Workout).notes = some "n" ∧
    (3 < 9 → 3 < (⟨1, "alice", "A", 4, some "n", 2, 9⟩ : Workout).updatedAt) :=
  c10_empty_update_advances_updatedAt
    ⟨[⟨1, "alice", "A", 4, some "n", 2, 3⟩], [], [], 2⟩ 9
    ⟨1, "alice", "A", 4, some "n", 2, 3⟩ (by decide) (by decide)

/-! ### C6 -/

/-- When the fan-out resolves, its aggregate is exactly the per-exercise
fetch applied to every exercise, in order. -/
lemma collectSets_ok_eq {db : DB} {ff : Nat → Bool} {l : List Exercise}
    {ys : List ExerciseWithSets}
    (h : collectSets (fetchExercise db ff) l = Except.ok ys) :
    ys = l.map (fun e => ⟨e, setsForExercise db e⟩) := by
  induction l generalizing ys with
  | nil =>
    rw [collectSets] at h
    cases h
    rfl
  | cons e rest ih =>
    rw [collectSets] at h
    by_cases hf : ff e.id = true
    · rw [fetchExercise, if_pos hf] at h
      cases h
    · rw [fetchExercise, if_neg hf] at h
      cases hrec : collectSets (fetchExercise db ff) rest with
      | error u => rw [hrec] at h; cases h
      | ok tail =>
        rw [hrec] at h
        cases h
        rw [List.map_cons, ih hrec]

/-- When any per-exercise fetch of the fan-out rejects, the whole fan-out
rejects. -/
lemma collectSets_error_of_mem {db : DB} {ff : Nat → Bool} {l : List Exercise}
    {e : Exercise} (he : e ∈ l) (hf : ff e.id = true) :
    collectSets (fetchExercise db ff) l = Except.error () := by
  induction l with
  | nil => cases he
  | cons x rest ih =>
    rw [collectSets]
    rcases List.mem_cons.1 he with hex | hmem
    · subst hex
      rw [fetchExercise, if_pos hf]
    · by_cases hx : ff x.id = true
      · rw [fetchExercise, if_pos hx]
      · rw [fetchExercise, if_neg hx, ih hmem]

/-- C6: the aggregate fetch fails with exactly the not-found result of
`getUserWorkout` when the owner-checked workout lookup misses (for every
failure pattern of the per-exercise fetches, so no sub-fetch is observable
before the check); when the lookup hits and any per-exercise sets fetch
fails, the whole operation fails; and a successful aggregate is always
complete: it carries the looked-up workout, every exercise of that workout,
and every set of each such exercise. -/
theorem c6_aggregate_all_or_nothing (db : DB) (ff : Nat → Bool)
    (workoutId : Nat) (userId : String) :
    (getUserWorkoutWithExercises db ff workoutId userId = Except.ok none
      ↔ getUserWorkout db workoutId userId = none) ∧
    (∀ e ∈ db.exercises, e.workoutId = workoutId → ff e.id = true →
      getUserWorkout db workoutId userId ≠ none →
      getUserWorkoutWithExercises db ff workoutId userId = Except.error ()) ∧
    (∀ agg, getUserWorkoutWithExercises db ff workoutId userId
        = Except.ok (some agg) →
      getUserWorkout db workoutId userId = some agg.workout ∧
      ∀ e ∈ db.exercises, e.workoutId = workoutId →
        ∃ ews ∈ agg.exercises, ews.exercise = e ∧
          ∀ s ∈ db.sets, s.exerciseId = e.id → s ∈ ews.sets) := by
  cases hhead : (db.workouts.filter (matchRow workoutId userId)).head? with
  | none =>
    have hget : getUserWorkout db workoutId userId = none := hhead
    have hres : getUserWorkoutWithExercises db ff workoutId userId
        = Except.ok none := by
      rw [getUserWorkoutWithExercises, hhead]
    refine ⟨⟨fun _ => hget, fun _ => hres⟩, ?_, ?_⟩
    · intro e _ _ _ hne
      exact absurd hget hne
    · intro agg hagg
      rw [hres] at hagg
      cases hagg
  | some w =>
    have hget : getUserWorkout db workoutId userId = some w := hhead
    cases hcs : collectSets (fetchExercise db ff) (exercisesOfWorkout db workoutId) with
    | error u =>
      have hres : getUserWorkoutWithExercises db ff workoutId userId
          = Except.error u := by
        rw [getUserWorkoutWithExercises, hhead, hcs]
      refine ⟨⟨?_, ?_⟩, ?_, ?_⟩
      · intro h
        rw [hres] at h
        cases h
      · intro h
        rw [hget] at h
        cases h
      · intro e _ _ _ _
        cases u
        exact hres
      · intro agg hagg
        rw [hres] at hagg
        cases hagg
    | ok ews =>
      have hres : getUserWorkoutWithExercises db ff workoutId userId
          = Except.ok (some ⟨w, ews⟩) := by
        rw [getUserWorkoutWithExercises, hhead, hcs]
      have hews : ews = (exercisesOfWorkout db workoutId).map
          (fun e => ⟨e, setsForExercise db e⟩) := collectSets_ok_eq hcs
      refine ⟨⟨?_, ?_⟩, ?_, ?_⟩
      · intro h
        rw [hres] at h
        cases h
      · intro h
        rw [hget] at h
        cases h
      · intro e he hwid hf _
        have hmem : e ∈ exercisesOfWorkout db workoutId := by
          rw [exercisesOfWorkout, List.mem_insertionSort, List.mem_filter]
          exact ⟨he, by simp [hwid]⟩
        rw [collectSets_error_of_mem hmem hf] at hcs
        cases hcs
      · intro agg hagg
        rw [hres] at hagg
        cases hagg
        refine ⟨hget, ?_⟩
        intro e he hwid
        have hmem : e ∈ exercisesOfWorkout db workoutId := by
          rw [exercisesOfWorkout, List.mem_insertionSort, List.mem_filter]
          exact ⟨he, by simp [hwid]⟩
        refine ⟨⟨e, setsForExercise db e⟩, ?_, rfl, ?_⟩
        · show _ ∈ ews
          rw [hews]
          exact List.mem_map_of_mem _ hmem
        · intro s hs hsid
          rw [setsForExercise, List.mem_insertionSort, List.mem_filter]
          exact ⟨hs, by simp [hsid]⟩

/-- Concrete instance of C6, third part: a successful aggregate for alice
carries her workout, its only exercise, and the set of that exercise. -/
theorem c6_aggregate_all_or_nothing_witness :
    getUserWorkout
        ⟨[⟨1, "alice", "A", 4, none, 2, 3⟩],
         [⟨1, 1, none, "Squat", 1, none, 0⟩],
         [⟨1, 1, 1, 5, some 100, 0⟩], 2⟩ 1 "alice"
      = some (⟨⟨1, "alice", "A", 4, none, 2, 3⟩,
          [⟨⟨1, 1, none, "Squat", 1, none, 0⟩, [⟨1, 1, 1, 5, some 100, 0⟩]⟩]⟩
            : WorkoutWithExercises).workout ∧
    ∀ e ∈ (⟨[⟨1, "alice", "A", 4, none, 2, 3⟩],
         [⟨1, 1, none, "Squat", 1, none, 0⟩],
         [⟨1, 1, 1, 5, some 100, 0⟩], 2⟩ : DB).exercises, e.workoutId = 1 →
      ∃ ews ∈ (⟨⟨1, "alice", "A", 4, none, 2, 3⟩,
          [⟨⟨1, 1, none, "Squat", 1, none, 0⟩, [⟨1, 1, 1, 5, some 100, 0⟩]⟩]⟩
            : WorkoutWithExercises).exercises, ews.exercise = e ∧
        ∀ s ∈ (⟨[⟨1, "alice", "A", 4, none, 2, 3⟩],
         [⟨1, 1, none, "Squat", 1, none, 0⟩],
         [⟨1, 1, 1, 5, some 100, 0⟩], 2⟩ : DB).sets, s.exerciseId = e.id → s ∈ ews.sets :=
  (c6_aggregate_all_or_nothing
      ⟨[⟨1, "alice", "A", 4, none, 2, 3⟩],
       [⟨1, 1, none, "Squat", 1, none, 0⟩],
       [⟨1, 1, 1, 5, some 100, 0⟩], 2⟩ (fun _ => false) 1 "alice").2.2
    ⟨⟨1, "alice", "A", 4, none, 2, 3⟩,
     [⟨⟨1, 1, none, "Squat", 1, none, 0⟩, [⟨1, 1, 1, 5, some 100, 0⟩]⟩]⟩ rfl

/-! ### C7 and C8 -/

/-- Membership in the date-scoped listing is exactly ownership plus the
closed start-of-day/end-of-day interval on the stored timestamp. -/
lemma mem_getUserWorkoutsByDate {db : DB} {u : String} {x : Workout} {q : Nat} :
    x ∈ getUserWorkoutsByDate db u q ↔
      (x ∈ db.workouts ∧ x.userId = u ∧ startOfDay q ≤ x.date ∧ x.date ≤ endOfDay q) := by
  rw [getUserWorkoutsByDate, List.mem_insertionSort, List.mem_filter]
  simp [and_assoc]

/-- C7: `getUserWorkoutsByDate` returns exactly the workouts of the caller
whose stored timestamp lies in the closed interval from local start of day
(00:00:00.000) to local end of day (23:59:59.999) of the queried calendar
day; in particular a workout stored at 23:59:59 of day d is included in the
query for day d and excluded from the query for day d+1. -/
theorem c7_date_range_boundary (db : DB) (u : String) (w : Workout) (d q1 q2 : Nat)
    (hw : w ∈ db.workouts) (hu : w.userId = u)
    (hdate : w.date = d * msPerDay + (23 * 3600000 + 59 * 60000 + 59 * 1000))
    (hq1 : q1 / msPerDay = d) (hq2 : q2 / msPerDay = d + 1) :
    (∀ (x : Workout) (q : Nat), x ∈ getUserWorkoutsByDate db u q ↔
      (x ∈ db.workouts ∧ x.userId = u ∧ startOfDay q ≤ x.date ∧ x.date ≤ endOfDay q)) ∧
    w ∈ getUserWorkoutsByDate db u q1 ∧
    w ∉ getUserWorkoutsByDate db u q2 := by
  have hs1 : startOfDay q1 = d * msPerDay := by rw [startOfDay, hq1]
  have he1 : endOfDay q1 = d * msPerDay + (23 * 3600000 + 59 * 60000 + 59 * 1000 + 999) := by
    rw [endOfDay, startOfDay, hq1]
  have hs2 : startOfDay q2 = (d + 1) * msPerDay := by rw [startOfDay, hq2]
  refine ⟨fun x q => mem_getUserWorkoutsByDate, ?_, ?_⟩
  · rw [mem_getUserWorkoutsByDate, hs1, he1, hdate, msPerDay]
    exact ⟨hw, hu, by omega, by omega⟩
  · rw [mem_getUserWorkoutsByDate, hs2, hdate, msPerDay]
    rintro ⟨-, -, hle, -⟩
    omega

/-- Concrete instance of C7: a workout of alice stored at 23:59:59.000 of
day 0 is listed for a query instant inside day 0 and not listed for a query
instant inside day 1. -/
theorem c7_date_range_boundary_witness :
    (∀ (x : Workout) (q : Nat),
      x ∈ getUserWorkoutsByDate
          ⟨[⟨1, "alice", "A", 86399000, none, 0, 0⟩], [], [], 2⟩ "alice" q ↔
        (x ∈ (⟨[⟨1, "alice", "A", 86399000, none, 0, 0⟩], [], [], 2⟩ : DB).workouts ∧
          x.userId = "alice" ∧ startOfDay q ≤ x.date ∧ x.date ≤ endOfDay q)) ∧
    (⟨1, "alice", "A", 86399000, none, 0, 0⟩ : Workout)
      ∈ getUserWorkoutsByDate
          ⟨[⟨1, "alice", "A", 86399000, none, 0, 0⟩], [], [], 2⟩ "alice" 50000000 ∧
    (⟨1, "alice", "A", 86399000, none, 0, 0⟩ : Workout)
      ∉ getUserWorkoutsByDate
          ⟨[⟨1, "alice", "A", 86399000, none, 0, 0⟩], [], [], 2⟩ "alice" 90000000 :=
  c7_date_range_boundary ⟨[⟨1, "alice", "A", 86399000, none, 0, 0⟩], [], [], 2⟩
    "alice" ⟨1, "alice", "A", 86399000, none, 0, 0⟩ 0 50000000 90000000
    (by decide) (by decide) (by decide) (by decide) (by decide)

/-- C8: both listings come back sorted by date ascending, an owner with no
rows gets the empty list rather than an error, and every successful
aggregate has its exercises sorted by `order` ascending with the sets of
each exercise sorted by setNumber ascending. -/
theorem c8_listing_and_aggregate_ordering (db : DB) (u : String) (q : Nat)
    (ff : Nat → Bool) (workoutId : Nat) (userId : String) :
    (getUserWorkouts db u).Pairwise (fun a b => a.date ≤ b.date) ∧
    (getUserWorkoutsByDate db u q).Pairwise (fun a b => a.date ≤ b.date) ∧
    ((∀ w ∈ db.workouts, w.userId ≠ u) → getUserWorkouts db u = []) ∧
    (∀ agg, getUserWorkoutWithExercises db ff workoutId userId
        = Except.ok (some agg) →
      (agg.exercises.map (fun ews => ews.exercise)).Pairwise
          (fun a b => a.order ≤ b.order) ∧
      ∀ ews ∈ agg.exercises, ews.sets.Pairwise
          (fun a b => a.setNumber ≤ b.setNumber)) := by
  refine ⟨?_, ?_, ?_, ?_⟩
  · exact (List.sorted_insertionSort byDate _).imp (fun h => h)
  · exact (List.sorted_insertionSort byDate _).imp (fun h => h)
  · intro hnone
    rw [getUserWorkouts]
    have hnil : db.workouts.filter (fun w => w.userId == u) = [] := by
      rw [List.filter_eq_nil_iff]
      intro x hx hbeq
      exact hnone x hx (by simpa using hbeq)
    rw [hnil]
    rfl
  · intro agg hagg
    cases hhead : (db.workouts.filter (matchRow workoutId userId)).head? with
    | none =>
      rw [getUserWorkoutWithExercises, hhead] at hagg
      cases hagg
    | some w =>
      cases hcs : collectSets (fetchExercise db ff) (exercisesOfWorkout db workoutId) with
      | error v =>
        rw [getUserWorkoutWithExercises, hhead, hcs] at hagg
        cases hagg
      | ok ews =>
        rw [getUserWorkoutWithExercises, hhead, hcs] at hagg
        cases hagg
        have hews : ews = (exercisesOfWorkout db workoutId).map
            (fun e => ⟨e, setsForExercise db e⟩) := collectSets_ok_eq hcs
        constructor
        · show (ews.map (fun ews => ews.exercise)).Pairwise _
          rw [hews, List.map_map]
          have hid : ((fun ews : ExerciseWithSets => ews.exercise) ∘
              (fun e => (⟨e, setsForExercise db e⟩ : ExerciseWithSets)))
            = fun e => e := rfl
          rw [hid, List.map_id']
          exact (List.sorted_insertionSort byOrder _).imp (fun h => h)
        · show ∀ ews' ∈ ews, _
          intro ews' hmem
          rw [hews] at hmem
          obtain ⟨e, _, heq⟩ := List.mem_map.1 hmem
          subst heq
          exact (List.sorted_insertionSort bySetNumber _).imp (fun h => h)

/-- Concrete instance of C8, aggregate part: exercises inserted with order
values [2, 1] come back sorted [1, 2] and each exercise's sets inserted with
setNumber [2, 1] come back sorted [1, 2]. -/
theorem c8_listing_and_aggregate_ordering_witness :
    ((⟨⟨1, "alice", "A", 0, none, 0, 0⟩,
        [⟨⟨2, 1, none, "C", 1, none, 0⟩, [⟨4, 2, 1, 8, none, 0⟩, ⟨3, 2, 2, 8, none, 0⟩]⟩,
         ⟨⟨1, 1, none, "B", 2, none, 0⟩, [⟨2, 1, 1, 5, none, 0⟩, ⟨1, 1, 2, 5, none, 0⟩]⟩]⟩
      : WorkoutWithExercises).exercises.map (fun ews => ews.exercise)).Pairwise
        (fun a b => a.order ≤ b.order) ∧
    ∀ ews ∈ (⟨⟨1, "alice", "A", 0, none, 0, 0⟩,
        [⟨⟨2, 1, none, "C", 1, none, 0⟩, [⟨4, 2, 1, 8, none, 0⟩, ⟨3, 2, 2, 8, none, 0⟩]⟩,
         ⟨⟨1, 1, none, "B", 2, none, 0⟩, [⟨2, 1, 1, 5, none, 0⟩, ⟨1, 1, 2, 5, none, 0⟩]⟩]⟩
      : WorkoutWithExercises).exercises,
      ews.sets.Pairwise (fun a b => a.setNumber ≤ b.setNumber) :=
  (c8_listing_and_aggregate_ordering
      ⟨[⟨1, "alice", "A", 0, none, 0, 0⟩],
       [⟨1, 1, none, "B", 2, none, 0⟩, ⟨2, 1, none, "C", 1, none, 0⟩],
       [⟨1, 1, 2, 5, none, 0⟩, ⟨2, 1, 1, 5, none, 0⟩,
        ⟨3, 2, 2, 8, none, 0⟩, ⟨4, 2, 1, 8, none, 0⟩], 2⟩
      "alice" 0 (fun _ => false) 1 "alice").2.2.2
    ⟨⟨1, "alice", "A", 0, none, 0, 0⟩,
     [⟨⟨2, 1, none, "C", 1, none, 0⟩, [⟨4, 2, 1, 8, none, 0⟩, ⟨3, 2, 2, 8, none, 0⟩]⟩,
      ⟨⟨1, 1, none, "B", 2, none, 0⟩, [⟨2, 1, 1, 5, none, 0⟩, ⟨1, 1, 2, 5, none, 0⟩]⟩]⟩
    rfl

/-! ### C3 and C4 -/

/-- A payload with no validation issues parses successfully. -/
lemma updateParse_ok_of_no_issues {input : RawUpdateInput}
    (h : updateWorkoutSchemaIssues input = []) :
    ∃ v, updateWorkoutSchemaParse input = Except.ok v := by
  rcases input with ⟨id, name, date, notes⟩
  cases id with
  | none => exact absurd h (by simp [updateWorkoutSchemaIssues])
  | some i =>
    cases name with
    | none => exact absurd h (by simp [updateWorkoutSchemaIssues])
    | some n =>
      cases date with
      | none => exact absurd h (by simp [updateWorkoutSchemaIssues])
      | some d =>
        refine ⟨⟨i, n, d, notes⟩, ?_⟩
        simp only [updateWorkoutSchemaParse]
        rw [h]
        rfl

/-- A payload with validation issues makes `.parse` throw exactly those issues. -/
lemma updateParse_error_of_issues {input : RawUpdateInput}
    (h : updateWorkoutSchemaIssues input ≠ []) :
    updateWorkoutSchemaParse input
      = Except.error (updateWorkoutSchemaIssues input) := by
  rcases input with ⟨id, name, date, notes⟩
  cases id with
  | none => cases name <;> cases date <;> rfl
  | some i =>
    cases name with
    | none => cases date <;> rfl
    | some n =>
      cases date with
      | none => rfl
      | some d =>
        simp only [updateWorkoutSchemaParse]
        rw [if_neg]
        intro hemp
        exact h (List.isEmpty_iff.1 hemp)

/-- A payload with no validation issues parses successfully (create schema). -/
lemma createParse_ok_of_no_issues {input : RawCreateInput}
    (h : createWorkoutSchemaIssues input = []) :
    ∃ v, createWorkoutSchemaParse input = Except.ok v := by
  rcases input with ⟨name, date, notes⟩
  cases name with
  | none => exact absurd h (by simp [createWorkoutSchemaIssues])
  | some n =>
    cases date with
    | none => exact absurd h (by simp [createWorkoutSchemaIssues])
    | some d =>
      refine ⟨⟨n, d, notes⟩, ?_⟩
      simp only [createWorkoutSchemaParse]
      rw [h]
      rfl

/-- A payload with validation issues makes `.parse` throw exactly those
issues (create schema). -/
lemma createParse_error_of_issues {input : RawCreateInput}
    (h : createWorkoutSchemaIssues input ≠ []) :
    createWorkoutSchemaParse input
      = Except.error (createWorkoutSchemaIssues input) := by
  rcases input with ⟨name, date, notes⟩
  cases name with
  | none => cases date <;> rfl
  | some n =>
    cases date with
    | none => rfl
    | some d =>
      simp only [createWorkoutSchemaParse]
      rw [if_neg]
      intro hemp
      exact h (List.isEmpty_iff.1 hemp)

/-- C3 as stated fails on the code: on a payload with an empty name, the
update entry point throws the ZodError out of `.parse` (no surrounding
try/catch) instead of returning a structured result to the caller. -/
theorem c3_counterexample_parse_throws :
    (updateWorkoutAction ⟨[], [], [], 1⟩ (some "alice") false (fun _ => 0) 0
        ⟨some 1, some "", some "2025-03-01", none⟩).1
      = ActionOutcome.threwValidation [⟨"name", "Name is required"⟩] ∧
    ¬ ∃ r, (updateWorkoutAction ⟨[], [], [], 1⟩ (some "alice") false (fun _ => 0) 0
        ⟨some 1, some "", some "2025-03-01", none⟩).1
      = ActionOutcome.returned r := by
  constructor
  · rfl
  · rintro ⟨r, hr⟩
    rw [show (updateWorkoutAction ⟨[], [], [], 1⟩ (some "alice") false (fun _ => 0) 0
        ⟨some 1, some "", some "2025-03-01", none⟩).1
      = ActionOutcome.threwValidation [⟨"name", "Name is required"⟩] from rfl] at hr
    cases hr

/-- C3 amended: each mutating entry point returns a structured
success-or-error result for every payload that passes its declared schema
(auth failure, not-found and store faults included), but on a payload that
fails the schema it throws the validation issues, which list the failing
fields, to the caller instead of returning. -/
theorem c3_structured_results_amended (db : DB) (authUserId : Option String)
    (dbFails : Bool) (parseDate : String → Nat) (now : Nat)
    (uin : RawUpdateInput) (cin : RawCreateInput) :
    (updateWorkoutSchemaIssues uin = [] →
      ∃ r, (updateWorkoutAction db authUserId dbFails parseDate now uin).1
        = ActionOutcome.returned r) ∧
    (updateWorkoutSchemaIssues uin ≠ [] →
      (updateWorkoutAction db authUserId dbFails parseDate now uin).1
        = ActionOutcome.threwValidation (updateWorkoutSchemaIssues uin)) ∧
    (createWorkoutSchemaIssues cin = [] →
      ∃ r, (createWorkoutAction db authUserId dbFails parseDate now cin).1
        = ActionOutcome.returned r) ∧
    (createWorkoutSchemaIssues cin ≠ [] →
      (createWorkoutAction db authUserId dbFails parseDate now cin).1
        = ActionOutcome.threwValidation (createWorkoutSchemaIssues cin)) := by
  refine ⟨?_, ?_, ?_, ?_⟩
  · intro h
    obtain ⟨v, hv⟩ := updateParse_ok_of_no_issues h
    cases authUserId with
    | none =>
      exact ⟨ActionResult.failure "Unauthorized", by simp only [updateWorkoutAction, hv]⟩
    | some userId =>
      cases dbFails with
      | true =>
        exact ⟨ActionResult.failure "Failed to update workout",
          by simp only [updateWorkoutAction, hv]; rfl⟩
      | false =>
        cases hres : (updateWorkout db v.id.toNat userId
            ⟨some v.name, some (parseDate v.date), v.notes⟩ now).1 with
        | none =>
          exact ⟨ActionResult.failure "Workout not found",
            by simp only [updateWorkoutAction, hv, hres]; rfl⟩
        | some w =>
          exact ⟨ActionResult.success w,
            by simp only [updateWorkoutAction, hv, hres]; rfl⟩
  · intro h
    simp only [updateWorkoutAction, updateParse_error_of_issues h]
  · intro h
    obtain ⟨v, hv⟩ := createParse_ok_of_no_issues h
    simp only [createWorkoutAction, hv]
    cases authUserId with
    | none => exact ⟨_, rfl⟩
    | some userId =>
      cases dbFails with
      | true => exact ⟨_, rfl⟩
      | false => exact ⟨_, rfl⟩
  · intro h
    simp only [createWorkoutAction, createParse_error_of_issues h]

/-- Concrete instance of the amended C3: a valid payload gets a returned
structured result, an invalid one gets the thrown issues. -/
theorem c3_structured_results_amended_witness :
    (∃ r, (updateWorkoutAction ⟨[], [], [], 1⟩ (some "alice") false (fun _ => 0) 0
        ⟨some 1, some "Leg Day", some "2025-03-01", none⟩).1
      = ActionOutcome.returned r) ∧
    (createWorkoutAction ⟨[], [], [], 1⟩ (some "alice") false (fun _ => 0) 0
        ⟨none, some "2025-03-01", none⟩).1
      = ActionOutcome.threwValidation (createWorkoutSchemaIssues
          ⟨none, some "2025-03-01", none⟩) := by
  have h := c3_structured_results_amended ⟨[], [], [], 1⟩ (some "alice") false
    (fun _ => 0) 0 ⟨some 1, some "Leg Day", some "2025-03-01", none⟩
    ⟨none, some "2025-03-01", none⟩
  exact ⟨h.1 (by decide), h.2.2.2 (by decide)⟩

/-- The update schema parses successfully exactly when it reports no issues. -/
lemma updateParse_ok_iff (input : RawUpdateInput) :
    (∃ v, updateWorkoutSchemaParse input = Except.ok v)
      ↔ updateWorkoutSchemaIssues input = [] := by
  constructor
  · rintro ⟨v, hv⟩
    by_contra hne
    rw [updateParse_error_of_issues hne] at hv
    cases hv
  · exact updateParse_ok_of_no_issues

/-- Field-by-field characterisation of an issue-free update payload. -/
lemma updateIssues_eq_nil_iff (input : RawUpdateInput) :
    updateWorkoutSchemaIssues input = [] ↔
      ((∃ i, input.id = some i ∧ 0 < i) ∧
       (∃ n, input.name = some n ∧ 1 ≤ n.length ∧ n.length ≤ 255) ∧
       (∃ d, input.date = some d ∧ 1 ≤ d.length) ∧
       (∀ m, input.notes = some m → m.length ≤ 1000)) := by
  rcases input with ⟨id, name, date, notes⟩
  cases id <;> cases name <;> cases date <;> cases notes <;>
    simp only [updateWorkoutSchemaIssues, List.append_eq_nil, List.append_assoc] <;>
    (try split_ifs) <;> simp_all <;> omega

/-- C4 as stated fails on the code: the update schema rejects the payload
that supplies only the id and omits name, date and notes. -/
theorem c4_counterexample_id_only_rejected :
    updateWorkoutSchemaParse ⟨some 1, none, none, none⟩
      = Except.error [⟨"name", "Required"⟩, ⟨"date", "Required"⟩] := rfl

/-- C4 amended: the update schema accepts a payload exactly when id is
present, integral and positive, name is present with 1..255 chars, and date
is present and non-empty; notes is the only optional field (0..1000 chars
when present), and an omitted notes field leaves the stored notes value
unchanged. -/
theorem c4_update_schema_amended (input : RawUpdateInput) :
    ((∃ v, updateWorkoutSchemaParse input = Except.ok v) ↔
      ((∃ i, input.id = some i ∧ 0 < i) ∧
       (∃ n, input.name = some n ∧ 1 ≤ n.length ∧ n.length ≤ 255) ∧
       (∃ d, input.date = some d ∧ 1 ≤ d.length) ∧
       (∀ m, input.notes = some m → m.length ≤ 1000))) ∧
    (∀ (data : UpdateData) (now : Nat) (w : Workout), data.notes = none →
      (applyUpdate data now w).notes = w.notes) := by
  constructor
  · rw [updateParse_ok_iff]
    exact updateIssues_eq_nil_iff input
  · intro data now w hn
    exact applyUpdate_notes_none now w hn

/-- Concrete instance of the amended C4: a payload with id, name and date
present and notes omitted parses, and the gateway leaves notes unchanged
when the payload omits them. -/
theorem c4_update_schema_amended_witness :
    (∃ v, updateWorkoutSchemaParse ⟨some 1, some "Leg Day", some "2025-03-01", none⟩
      = Except.ok v) ∧
    (applyUpdate ⟨some "B", none, none⟩ 9 ⟨1, "alice", "A", 4, some "n", 2, 3⟩).notes
      = (⟨1, "alice", "A", 4, some "n", 2, 3⟩ : Workout).notes := by
  have h := c4_update_schema_amended ⟨some 1, some "Leg Day", some "2025-03-01", none⟩
  exact ⟨h.1.2 (by decide),
    h.2 ⟨some "B", none, none⟩ 9 ⟨1, "alice", "A", 4, some "n", 2, 3⟩ rfl⟩

end WorkoutApp
